import Mathlib

/-!
Verification of the combat, stat and inventory core of "The Emberstone
Legacy" (game.py): a shallow embedding of the Item / Enemy / Player data
model, the action resolver (attack, special move, defend, item use, flee),
and the turn-based combat loop `start_combat`, together with theorems
settling the specification claims.

Modelling conventions:
* Python integers are `ℤ`; the RNG draws `random.randint(a, b)` and
  `random.random()` are explicit parameters (`ℤ` resp. `ℚ`) supplied by the
  caller, one per draw site, mirroring an injectable random source.
* The float literals `0.015`, `0.01`, `1.8` and `0.33` appearing in the
  source are modelled by the exact rationals `15/1000`, `1/100`, `9/5` and
  `33/100`; `int(x * 1.8)` (truncation toward zero) becomes
  `Int.tdiv (x * 9) 5`.
* Interactive input is a list of already-parsed valid commands; printing
  and sleeping are ignored (they do not touch game state).
-/

namespace Emberstone

/-- Item effect descriptors, embedding the effect tuples of game.py:
`('heal', n)`, `('mana', n)` and `('boost', attr, n)`. -/
inductive Effect where
  | heal (magnitude : ℤ)
  | mana (magnitude : ℤ)
  | boost (attr : String) (magnitude : ℤ)
deriving DecidableEq

/-- The `Item` class of game.py: name, description, item type tag
(`"potion"`, `"weapon"`, `"artifact"`) and an optional effect. -/
structure Item where
  name : String
  description : String
  item_type : String
  effect : Option Effect := none
deriving DecidableEq

/-- The player's attribute dictionary `{'strength': _, 'agility': _, 'magic': _}`. -/
structure Stats where
  strength : ℤ
  agility : ℤ
  magic : ℤ
deriving DecidableEq

/-- The `Enemy` class of game.py. -/
structure Enemy where
  name : String
  max_hp : ℤ
  hp : ℤ
  strength : ℤ
  agility : ℤ
  magic : ℤ
  description : String
deriving DecidableEq

/-- The `Player` class of game.py. -/
structure Player where
  name : String
  char_class : String
  stats : Stats
  max_hp : ℤ
  hp : ℤ
  max_mp : ℤ
  mp : ℤ
  inventory : List Item
  is_defending : Bool
deriving DecidableEq

/-- `Enemy.__init__(name, hp, strength, agility, magic, description)`:
both `max_hp` and `hp` are set to the `hp` argument. -/
def Enemy.mk' (name : String) (hp strength agility magic : ℤ)
    (description : String) : Enemy :=
  { name := name, max_hp := hp, hp := hp, strength := strength,
    agility := agility, magic := magic, description := description }

/-- `Player.__init__(name)`: empty class, zero stats, 100/100 HP, 50/50 MP,
empty inventory, not defending. -/
def Player.init (name : String) : Player :=
  { name := name, char_class := "", stats := ⟨0, 0, 0⟩,
    max_hp := 100, hp := 100, max_mp := 50, mp := 50,
    inventory := [], is_defending := false }

/-- `Enemy.is_alive`: `hp > 0`. -/
def Enemy.is_alive (e : Enemy) : Bool := e.hp > 0

/-- `Player.is_alive`: `hp > 0`. -/
def Player.is_alive (p : Player) : Bool := p.hp > 0

/-- `Enemy.take_damage`: `hp -= damage; if hp < 0: hp = 0`. -/
def Enemy.take_damage (e : Enemy) (damage : ℤ) : Enemy :=
  let hp' := e.hp - damage
  { e with hp := if hp' < 0 then 0 else hp' }

/-- `Player.take_damage`: `hp -= damage; if hp < 0: hp = 0`. -/
def Player.take_damage (p : Player) (damage : ℤ) : Player :=
  let hp' := p.hp - damage
  { p with hp := if hp' < 0 then 0 else hp' }

/-- `Enemy.attack(target)`.  If the target is defending the damage is
`(strength + randint(1,4)) // 2` (Python floor division, `Int.fdiv`) with no
dodge check; otherwise a dodge roll `random.random() < agility * 0.01`
ends the attack with no damage, else the damage is
`strength + randint(1,6)`.  `rInt` stands for whichever `randint` draw the
taken branch performs, `rFloat` for the `random.random()` dodge draw. -/
def Enemy.attack (e : Enemy) (target : Player) (rInt : ℤ) (rFloat : ℚ) :
    Player :=
  if target.is_defending then
    let damage := e.strength + rInt
    let damage := Int.fdiv damage 2
    target.take_damage damage
  else
    let dodge_chance : ℚ := (target.stats.agility : ℚ) * (1 / 100)
    if rFloat < dodge_chance then
      target
    else
      target.take_damage (e.strength + rInt)

/-- `Player.attack(target)`: `base_damage = strength + randint(-2, 5)`;
if `random.random() < agility * 0.015` the damage becomes
`int(base_damage * 1.8)` (truncation toward zero, modelled exactly as
`Int.tdiv (base * 9) 5`); the damage is floored at 1 and applied to the
target. -/
def Player.attack (p : Player) (target : Enemy) (rInt : ℤ) (rFloat : ℚ) :
    Enemy :=
  let crit_chance : ℚ := (p.stats.agility : ℚ) * (15 / 1000)
  let base_damage := p.stats.strength + rInt
  let damage :=
    if rFloat < crit_chance then Int.tdiv (base_damage * 9) 5
    else base_damage
  let damage := if damage < 1 then 1 else damage
  target.take_damage damage

/-- `Player.special_move(target)`: cost 15 MP; fails (returning `false`,
no state change) when `mp < 15`, otherwise deducts the cost, dispatches on
the class string (`randint(5,10)` / `randint(8,15)` / `randint(6,12)`
modelled by the parameter `rInt`) and returns `true`.  A class string
outside the three known ones falls through the `elif` chain: the cost is
still deducted, no damage is dealt, and `true` is returned. -/
def Player.special_move (p : Player) (target : Enemy) (rInt : ℤ) :
    Player × Enemy × Bool :=
  let cost : ℤ := 15
  if p.mp < cost then
    (p, target, false)
  else
    let p' := { p with mp := p.mp - cost }
    if p.char_class = "Guardian" then
      (p', target.take_damage (p.stats.strength + rInt), true)
    else if p.char_class = "Mage" then
      (p', target.take_damage (p.stats.magic + rInt), true)
    else if p.char_class = "Shadow" then
      (p', target.take_damage (p.stats.agility + rInt), true)
    else
      (p', target, true)

/-- `Player.use_item(item)`: non-potions are rejected with no state change;
a heal potion at full HP (resp. mana potion at full MP) is a no-op and the
item stays; otherwise the magnitude is added, the resource clamped to its
max, and the item removed from the inventory (first matching occurrence,
as `list.remove`).  Effect tuples other than `('heal', _)` / `('mana', _)`
fall through the `elif` chain with no state change. -/
def Player.use_item (p : Player) (item : Item) : Player :=
  if item.item_type ≠ "potion" then
    p
  else
    match item.effect with
    | some (.heal n) =>
        if p.hp = p.max_hp then p
        else
          let hp' := p.hp + n
          let hp' := if hp' > p.max_hp then p.max_hp else hp'
          { p with hp := hp', inventory := p.inventory.erase item }
    | some (.mana n) =>
        if p.mp = p.max_mp then p
        else
          let mp' := p.mp + n
          let mp' := if mp' > p.max_mp then p.max_mp else mp'
          { p with mp := mp', inventory := p.inventory.erase item }
    | _ => p

/-- `Player.setup_class(char_class)`: sets the class string, then the
per-class attribute/vital table and class weapon, then appends two
starter Health Potions. -/
def Player.setup_class (p : Player) (char_class : String) : Player :=
  let p := { p with char_class := char_class }
  let p :=
    if char_class = "Guardian" then
      { p with stats := ⟨15, 8, 5⟩, max_hp := 120, hp := 120,
               max_mp := 30, mp := 30,
               inventory := p.inventory ++
                 [⟨"Soldier\'s Sword", "A reliable steel sword.", "weapon",
                   some (.boost "strength" 2)⟩] }
    else if char_class = "Mage" then
      { p with stats := ⟨6, 10, 18⟩, max_hp := 80, hp := 80,
               max_mp := 80, mp := 80,
               inventory := p.inventory ++
                 [⟨"Apprentice Staff",
                   "A smooth wooden staff, warm to the touch.", "weapon",
                   some (.boost "magic" 2)⟩] }
    else if char_class = "Shadow" then
      { p with stats := ⟨10, 16, 10⟩, max_hp := 90, hp := 90,
               max_mp := 50, mp := 50,
               inventory := p.inventory ++
                 [⟨"Twin Daggers", "A pair of sharp, quiet daggers.",
                   "weapon", some (.boost "agility" 2)⟩] }
    else p
  { p with inventory := p.inventory ++
      [⟨"Health Potion", "Restores 25 HP.", "potion", some (.heal 25)⟩,
       ⟨"Health Potion", "Restores 25 HP.", "potion", some (.heal 25)⟩] }

/-- A parsed command of the inventory screen (`Player.show_inventory`):
`use NAME`, `view NAME`, `discard NAME`, `back`, or anything malformed /
unrecognized (`invalid`, which only re-prompts). -/
inductive InvCmd where
  | use (item_name : String)
  | view (item_name : String)
  | discard (item_name : String)
  | back
  | invalid
deriving DecidableEq

/-- The item lookup of `show_inventory`: the first inventory item whose
lowercased name equals the (already lowercased) query. -/
def findItem (inv : List Item) (item_name : String) : Option Item :=
  inv.find? (fun it => it.name.toLower = item_name)

/-- The command loop of `Player.show_inventory`: `back` exits, a found
`use` applies `use_item` and exits, `view` re-prompts, `discard` removes
the found item and re-prompts, not-found names and invalid commands
re-prompt.  Running out of scripted commands leaves the player blocked at
the prompt; we return the state reached so far. -/
def invLoop : Player → List InvCmd → Player
  | p, [] => p
  | p, c :: rest =>
    match c with
    | .back => p
    | .use nm =>
        match findItem p.inventory nm with
        | none => invLoop p rest
        | some it => p.use_item it
    | .view nm =>
        match findItem p.inventory nm with
        | none => invLoop p rest
        | some _ => invLoop p rest
    | .discard nm =>
        match findItem p.inventory nm with
        | none => invLoop p rest
        | some it => invLoop { p with inventory := p.inventory.erase it } rest
    | .invalid => invLoop p rest

/-- `Player.show_inventory()`: with an empty bag the screen returns at
once (the command loop is never entered); otherwise the command loop
runs. -/
def Player.show_inventory (p : Player) (cmds : List InvCmd) : Player :=
  if p.inventory.isEmpty then p else invLoop p cmds

/-- A player combat command at the `PLAYER'S TURN` prompt of
`start_combat`, carrying the RNG draws its resolution consumes:
`attack` draws `randint(-2,5)` and the crit `random.random()`; `special`
draws one class `randint`; `flee` draws one `random.random()`; `item`
carries the scripted inventory interaction; `invalid` is any
unrecognized command (re-prompt). -/
inductive PAction where
  | attack (rInt : ℤ) (rFloat : ℚ)
  | special (rInt : ℤ)
  | defend
  | item (cmds : List InvCmd)
  | flee (rFloat : ℚ)
  | invalid
deriving DecidableEq

/-- Result of the inner `while not action_taken` loop of `start_combat`:
either a successful flee (immediate return `'fled'`), or a turn-ending
action leaving the given player/enemy state. -/
inductive TurnRes where
  | fled
  | acted (p : Player) (e : Enemy)
deriving DecidableEq

/-- The inner `while not action_taken` loop of `start_combat`: commands
are consumed until one ends the turn.  `attack`, `defend` and a failed
flee end the turn; a successful flee returns `'fled'`; `special` ends
the turn only on success (enough MP); `item` and invalid commands
re-prompt.  `none` means the script ran out before a turn-ending action
(the loop blocks at the prompt and `start_combat` does not return). -/
def resolveActions : Player → Enemy → List PAction → Option TurnRes
  | _, _, [] => none
  | p, e, a :: rest =>
    match a with
    | .attack ri rf => some (.acted p (p.attack e ri rf))
    | .special ri =>
        let r := p.special_move e ri
        if r.2.2 then some (.acted r.1 r.2.1)
        else resolveActions r.1 r.2.1 rest
    | .defend => some (.acted { p with is_defending := true } e)
    | .item cmds => resolveActions (p.show_inventory cmds) e rest
    | .flee rf =>
        if rf > 33 / 100 then some .fled
        else some (.acted p e)
    | .invalid => resolveActions p e rest

/-- Terminal outcome of `start_combat`: the strings `'victory'`,
`'defeat'`, `'fled'`. -/
inductive Outcome where
  | victory
  | defeat
  | fled
deriving DecidableEq

/-- The scripted input of one iteration of the combat loop: the player's
commands for the turn plus the RNG draws the enemy's answer consumes
(`eInt` for whichever `randint` the enemy attack performs, `eFloat` for
its dodge `random.random()`). -/
structure TurnInput where
  actions : List PAction
  eInt : ℤ
  eFloat : ℚ
deriving DecidableEq

/-- `start_combat(enemy)`: while both combatants are alive, reset
`is_defending`, resolve the player's turn (a successful flee returns
`'fled'`), check the enemy's death immediately afterwards (`'victory'`
before the enemy acts), then let the enemy attack and check the player's
death (`'defeat'`); the trailing `return 'defeat'` is reached when the
`while` condition fails.  `none` means the scripted input ran out with
the loop still awaiting a command. -/
def start_combat : Player → Enemy → List TurnInput → Option Outcome
  | p, e, [] =>
    if p.is_alive && e.is_alive then none else some .defeat
  | p, e, t :: rest =>
    if p.is_alive && e.is_alive then
      match resolveActions { p with is_defending := false } e t.actions with
      | none => none
      | some .fled => some .fled
      | some (.acted p1 e1) =>
        if !e1.is_alive then some .victory
        else if !(e1.attack p1 t.eInt t.eFloat).is_alive then some .defeat
        else start_combat (e1.attack p1 t.eInt t.eFloat) e1 rest
    else some .defeat

/-- Instrumented variant of `start_combat` recording the player and
enemy state at the moment of return; `start_combat_run_fst` proves it
agrees with `start_combat` on the outcome. -/
def start_combat_run : Player → Enemy → List TurnInput →
    Option (Outcome × Player × Enemy)
  | p, e, [] =>
    if p.is_alive && e.is_alive then none else some (.defeat, p, e)
  | p, e, t :: rest =>
    if p.is_alive && e.is_alive then
      match resolveActions { p with is_defending := false } e t.actions with
      | none => none
      | some .fled => some (.fled, { p with is_defending := false }, e)
      | some (.acted p1 e1) =>
        if !e1.is_alive then some (.victory, p1, e1)
        else if !(e1.attack p1 t.eInt t.eFloat).is_alive then
          some (.defeat, e1.attack p1 t.eInt t.eFloat, e1)
        else start_combat_run (e1.attack p1 t.eInt t.eFloat) e1 rest
    else some (.defeat, p, e)

/-- Validity of an item: its heal / restore-mana magnitude, if any, is
nonnegative (true of every item the game creates; a negative-magnitude
potion could lower the drinker's vitals, which the game never does). -/
def Item.effect_nonneg (it : Item) : Bool :=
  match it.effect with
  | some (.heal n) => decide (0 ≤ n)
  | some (.mana n) => decide (0 ≤ n)
  | _ => true

/-- Validity of a player's inventory: every item is valid. -/
def invOk (p : Player) : Prop :=
  ∀ it ∈ p.inventory, it.effect_nonneg = true

instance (p : Player) : Decidable (invOk p) := by
  unfold invOk
  infer_instance

/-- Validity of the RNG draws of one enemy turn: the enemy's `randint`
draw lies in the widest range the two branches use (`randint(1,4)` when
the player defends, `randint(1,6)` otherwise). -/
def validTurn (t : TurnInput) : Prop := 1 ≤ t.eInt ∧ t.eInt ≤ 6

/-! ### Concrete demonstration values (mirroring test_game.py) -/

/-- The demo player of test_game.py: a Mage named TestHero
(strength 6, agility 10, magic 18, 80/80 HP, 80/80 MP). -/
def mageDemo : Player := (Player.init "TestHero").setup_class "Mage"

/-- The demo enemy of test_game.py: 50 HP, strength 10, agility 5. -/
def golemDemo : Enemy := Enemy.mk' "Test Golem" 50 10 5 0 "A test."

/-- The demo player in a defensive stance. -/
def defendDemo : Player := { mageDemo with is_defending := true }

/-- A demo Guardian (120/120 HP) fresh out of `setup_class`. -/
def guardianDemo : Player := (Player.init "TestHero").setup_class "Guardian"

/-- The Guardian demo at 110/120 HP. -/
def guardianDemo110 : Player := { guardianDemo with hp := 110 }

/-- A starter Health Potion. -/
def potionDemo : Item :=
  ⟨"Health Potion", "Restores 25 HP.", "potion", some (.heal 25)⟩

/-- The Mage starter weapon (a non-potion item). -/
def staffDemo : Item :=
  ⟨"Apprentice Staff", "A smooth wooden staff, warm to the touch.", "weapon",
   some (.boost "magic" 2)⟩

/-- The Mage demo with an unknown class string. -/
def necroDemo : Player := { mageDemo with char_class := "Necromancer" }

/-- The enemy used to refute the upper clamp in claim C5. -/
def ceEnemy : Enemy := Enemy.mk' "Test Golem" 20 5 5 0 "A test."

/-! ### Claim theorems -/

/-- C2: a player basic attack computes base damage `strength + rInt` (with
`rInt` drawn from `randint(-2,5)`); if the crit draw is below
`agility * 0.015` the damage becomes `int(base * 1.8)` (truncated toward
zero); the damage is floored at 1 and the defender's health is reduced by
it, clamped at 0, no other field changing.  Concretely (strength 6,
roll 2, 50-HP target): no crit leaves 42; a forced crit deals
`int(8 * 1.8) = 14`, leaving 36. -/
theorem C2_player_attack (p : Player) (e : Enemy) (rInt : ℤ) (rFloat : ℚ) :
    (p.attack e rInt rFloat =
      { e with hp := max 0 (e.hp -
          max 1 (if rFloat < (p.stats.agility : ℚ) * (15 / 1000)
                 then Int.tdiv ((p.stats.strength + rInt) * 9) 5
                 else p.stats.strength + rInt)) }) ∧
    (mageDemo.attack golemDemo 2 (9 / 10)).hp = 42 ∧
    (mageDemo.attack golemDemo 2 0).hp = 36 := by
  refine ⟨?_, by with_unfolding_all decide, by with_unfolding_all decide⟩
  unfold Player.attack Enemy.take_damage
  dsimp only
  generalize Int.tdiv ((p.stats.strength + rInt) * 9) 5 = T
  split_ifs <;> (congr 1; omega)

/-- C3: an enemy attack against a defending player deals
`(strength + randint(1,4)) // 2` (floor division) with no dodge check;
against a non-defending player, a dodge draw below `agility * 0.01`
leaves the player untouched, otherwise the damage is
`strength + randint(1,6)`.  Concretely, enemy strength 10 with roll 4
against a defender deals exactly 7 damage. -/
theorem C3_enemy_attack (e : Enemy) (p : Player) (rInt : ℤ) (rFloat : ℚ) :
    (p.is_defending = true →
      e.attack p rInt rFloat =
        { p with hp := max 0 (p.hp - Int.fdiv (e.strength + rInt) 2) }) ∧
    (p.is_defending = false →
      rFloat < (p.stats.agility : ℚ) * (1 / 100) →
      e.attack p rInt rFloat = p) ∧
    (p.is_defending = false →
      ¬ rFloat < (p.stats.agility : ℚ) * (1 / 100) →
      e.attack p rInt rFloat =
        { p with hp := max 0 (p.hp - (e.strength + rInt)) }) ∧
    defendDemo.hp - (golemDemo.attack defendDemo 4 (9 / 10)).hp = 7 := by
  refine ⟨?_, ?_, ?_, by with_unfolding_all decide⟩
  · intro hd
    unfold Enemy.attack Player.take_damage
    rw [hd, if_pos rfl]
    dsimp only
    generalize Int.fdiv (e.strength + rInt) 2 = D
    congr 1; omega
  · intro hd hr
    unfold Enemy.attack
    rw [hd, if_neg Bool.false_ne_true]
    dsimp only
    rw [if_pos hr]
  · intro hd hr
    unfold Enemy.attack Player.take_damage
    rw [hd, if_neg Bool.false_ne_true]
    dsimp only
    rw [if_neg hr]
    congr 1; omega

/-- C3 witness: against the defending demo Mage, the strength-10 enemy
with roll 4 deals `fdiv 14 2 = 7`; against the non-defending demo Mage a
dodge draw of 0 (below `10 * 0.01`) leaves the player unchanged. -/
theorem C3_enemy_attack_witness :
    defendDemo.is_defending = true ∧
    golemDemo.attack defendDemo 4 (9 / 10) =
      { defendDemo with
          hp := max 0 (defendDemo.hp -
            Int.fdiv (golemDemo.strength + 4) 2) } ∧
    mageDemo.is_defending = false ∧
    ((0 : ℚ) < (mageDemo.stats.agility : ℚ) * (1 / 100)) ∧
    golemDemo.attack mageDemo 4 0 = mageDemo :=
  ⟨rfl, (C3_enemy_attack golemDemo defendDemo 4 (9 / 10)).1 rfl, rfl,
   by with_unfolding_all decide,
   (C3_enemy_attack golemDemo mageDemo 4 0).2.1 rfl
     (by with_unfolding_all decide)⟩

/-- C4: the special move fails exactly on mana below the fixed cost 15
(failure signalled, no state change); otherwise it deducts exactly 15
mana and deals the class damage directly to the target (Guardian
`strength + randint(5,10)`, Mage `magic + randint(8,15)`, Shadow
`agility + randint(6,12)`).  Concretely a Mage (magic 18) with roll 10
deals 28 damage and ends with 15 less mana. -/
theorem C4_special_move (p : Player) (e : Enemy) (rInt : ℤ) :
    (p.mp < 15 → p.special_move e rInt = (p, e, false)) ∧
    (15 ≤ p.mp → p.char_class = "Guardian" →
      p.special_move e rInt =
        ({ p with mp := p.mp - 15 },
         { e with hp := max 0 (e.hp - (p.stats.strength + rInt)) }, true)) ∧
    (15 ≤ p.mp → p.char_class = "Mage" →
      p.special_move e rInt =
        ({ p with mp := p.mp - 15 },
         { e with hp := max 0 (e.hp - (p.stats.magic + rInt)) }, true)) ∧
    (15 ≤ p.mp → p.char_class = "Shadow" →
      p.special_move e rInt =
        ({ p with mp := p.mp - 15 },
         { e with hp := max 0 (e.hp - (p.stats.agility + rInt)) }, true)) ∧
    golemDemo.hp - (mageDemo.special_move golemDemo 10).2.1.hp = 28 ∧
    (mageDemo.special_move golemDemo 10).1.mp = mageDemo.mp - 15 := by
  refine ⟨?_, ?_, ?_, ?_, by decide, by decide⟩
  · intro h
    unfold Player.special_move
    rw [if_pos (by omega)]
  · intro h hc
    unfold Player.special_move Enemy.take_damage
    rw [if_neg (by omega), hc, if_pos rfl]
    dsimp only
    refine congrArg₂ Prod.mk rfl (congrArg₂ Prod.mk ?_ rfl)
    congr 1; omega
  · intro h hc
    unfold Player.special_move Enemy.take_damage
    rw [if_neg (by omega), hc, if_neg (by decide), if_pos rfl]
    dsimp only
    refine congrArg₂ Prod.mk rfl (congrArg₂ Prod.mk ?_ rfl)
    congr 1; omega
  · intro h hc
    unfold Player.special_move Enemy.take_damage
    rw [if_neg (by omega), hc, if_neg (by decide), if_neg (by decide),
      if_pos rfl]
    dsimp only
    refine congrArg₂ Prod.mk rfl (congrArg₂ Prod.mk ?_ rfl)
    congr 1; omega

/-- C4 witness: a 10-MP Mage fails with no state change; the 80-MP demo
Mage succeeds, paying exactly 15 MP and dealing `18 + 10 = 28`. -/
theorem C4_special_move_witness :
    ({ mageDemo with mp := 10 }).mp < 15 ∧
    ({ mageDemo with mp := 10 }).special_move golemDemo 10 =
      ({ mageDemo with mp := 10 }, golemDemo, false) ∧
    15 ≤ mageDemo.mp ∧ mageDemo.char_class = "Mage" ∧
    mageDemo.special_move golemDemo 10 =
      ({ mageDemo with mp := mageDemo.mp - 15 },
       { golemDemo with
           hp := max 0 (golemDemo.hp - (mageDemo.stats.magic + 10)) },
       true) :=
  ⟨by decide,
   (C4_special_move { mageDemo with mp := 10 } golemDemo 10).1 (by decide),
   by decide, rfl,
   (C4_special_move mageDemo golemDemo 10).2.2.1 (by decide) rfl⟩

/-- C10: a player with a class string outside Guardian / Mage / Shadow and
at least 15 mana still pays the 15-mana cost, deals no damage, and the
move reports success: the cost is charged before a class dispatch that
has no fallback branch. -/
theorem C10_special_unknown_class (p : Player) (e : Enemy) (rInt : ℤ)
    (hmp : 15 ≤ p.mp) (hg : p.char_class ≠ "Guardian")
    (hm : p.char_class ≠ "Mage") (hs : p.char_class ≠ "Shadow") :
    p.special_move e rInt = ({ p with mp := p.mp - 15 }, e, true) := by
  unfold Player.special_move
  rw [if_neg (by omega), if_neg hg, if_neg hm, if_neg hs]

/-- C10 witness: a "Necromancer" Mage-statted player with 80 MP pays 15
MP, leaves the enemy untouched, and succeeds. -/
theorem C10_special_unknown_class_witness :
    15 ≤ necroDemo.mp ∧ necroDemo.char_class ≠ "Guardian" ∧
    necroDemo.char_class ≠ "Mage" ∧ necroDemo.char_class ≠ "Shadow" ∧
    necroDemo.special_move golemDemo 10 =
      ({ necroDemo with mp := necroDemo.mp - 15 }, golemDemo, true) :=
  ⟨by decide, by decide, by decide, by decide,
   C10_special_unknown_class necroDemo golemDemo 10 (by decide) (by decide)
     (by decide) (by decide)⟩

/-- C5 (amended): for every combatant and every integer amount,
`take_damage` sets health to `max 0 (health - amount)` (so health never
falls below 0 and `max_health` is untouched); the upper bound
`health ≤ max_health` is preserved for nonnegative amounts from any
state satisfying `0 ≤ health ≤ max_health` (the claim's unrestricted
upper bound fails for negative amounts, see the counterexample). -/
theorem C5_take_damage (p : Player) (e : Enemy) (amount : ℤ) :
    ((p.take_damage amount).hp = max 0 (p.hp - amount)) ∧
    ((e.take_damage amount).hp = max 0 (e.hp - amount)) ∧
    ((p.take_damage amount).max_hp = p.max_hp) ∧
    ((e.take_damage amount).max_hp = e.max_hp) ∧
    (0 ≤ (p.take_damage amount).hp) ∧
    (0 ≤ (e.take_damage amount).hp) ∧
    (0 ≤ amount → 0 ≤ p.hp → p.hp ≤ p.max_hp →
      (p.take_damage amount).hp ≤ p.max_hp) ∧
    (0 ≤ amount → 0 ≤ e.hp → e.hp ≤ e.max_hp →
      (e.take_damage amount).hp ≤ e.max_hp) := by
  unfold Player.take_damage Enemy.take_damage
  dsimp only
  refine ⟨?_, ?_, rfl, rfl, ?_, ?_, ?_, ?_⟩ <;> split_ifs <;> omega

/-- C5 witness: a 100/100-HP player hit for 30 ends at
`max 0 (100 - 30) = 70 ≤ 100`. -/
theorem C5_take_damage_witness :
    ((Player.init "TestHero").take_damage 30).hp =
      max 0 ((Player.init "TestHero").hp - 30) ∧
    (0 : ℤ) ≤ 30 ∧ (0 : ℤ) ≤ (Player.init "TestHero").hp ∧
    (Player.init "TestHero").hp ≤ (Player.init "TestHero").max_hp ∧
    ((Player.init "TestHero").take_damage 30).hp ≤ (Player.init "TestHero").max_hp :=
  ⟨(C5_take_damage (Player.init "TestHero") ceEnemy 30).1, by decide, by decide,
   by decide,
   (C5_take_damage (Player.init "TestHero") ceEnemy 30).2.2.2.2.2.2.1
     (by decide) (by decide) (by decide)⟩

/-- C5 counterexample: the claim quantifies over every integer amount,
but `take_damage (-5)` on a 20/20-HP enemy yields 25 HP, violating the
claimed invariant `health ≤ max_health` (while still matching the
`max 0 (health - amount)` formula). -/
theorem C5_take_damage_counterexample :
    (ceEnemy.take_damage (-5)).hp = max 0 (ceEnemy.hp - (-5)) ∧
    ¬ ((ceEnemy.take_damage (-5)).hp ≤ (ceEnemy.take_damage (-5)).max_hp) := by
  decide

/-- C6: `setup_class` on a fresh player produces exactly the per-class
table (Guardian str15/agi8/mag5 hp120/120 mp30/30; Mage str6/agi10/mag18
hp80/80 mp80/80; Shadow str10/agi16/mag10 hp90/90 mp50/50), with an
inventory of exactly one class weapon bearing an inert attribute-boost
effect of magnitude 2 (not applied to the stats) plus two heal-25 Health
Potions. -/
theorem C6_setup_class (nm : String) :
    (Player.init nm).setup_class "Guardian" =
      { name := nm, char_class := "Guardian", stats := ⟨15, 8, 5⟩,
        max_hp := 120, hp := 120, max_mp := 30, mp := 30,
        inventory :=
          [⟨"Soldier\'s Sword", "A reliable steel sword.", "weapon",
            some (.boost "strength" 2)⟩,
           ⟨"Health Potion", "Restores 25 HP.", "potion", some (.heal 25)⟩,
           ⟨"Health Potion", "Restores 25 HP.", "potion", some (.heal 25)⟩],
        is_defending := false } ∧
    (Player.init nm).setup_class "Mage" =
      { name := nm, char_class := "Mage", stats := ⟨6, 10, 18⟩,
        max_hp := 80, hp := 80, max_mp := 80, mp := 80,
        inventory :=
          [⟨"Apprentice Staff", "A smooth wooden staff, warm to the touch.",
            "weapon", some (.boost "magic" 2)⟩,
           ⟨"Health Potion", "Restores 25 HP.", "potion", some (.heal 25)⟩,
           ⟨"Health Potion", "Restores 25 HP.", "potion", some (.heal 25)⟩],
        is_defending := false } ∧
    (Player.init nm).setup_class "Shadow" =
      { name := nm, char_class := "Shadow", stats := ⟨10, 16, 10⟩,
        max_hp := 90, hp := 90, max_mp := 50, mp := 50,
        inventory :=
          [⟨"Twin Daggers", "A pair of sharp, quiet daggers.", "weapon",
            some (.boost "agility" 2)⟩,
           ⟨"Health Potion", "Restores 25 HP.", "potion", some (.heal 25)⟩,
           ⟨"Health Potion", "Restores 25 HP.", "potion", some (.heal 25)⟩],
        is_defending := false } :=
  ⟨rfl, rfl, rfl⟩

/-- C7: using a heal (resp. restore-mana) potion at full health (resp.
mana) is a no-op and keeps the item; below maximum it adds the
magnitude, clamps to the maximum, and removes exactly that one item
(the remaining inventory together with the used item is a permutation
of the original). -/
theorem C7_use_item (p : Player) (it : Item) (n : ℤ) :
    (it.item_type = "potion" → it.effect = some (.heal n) →
      ((p.hp = p.max_hp → p.use_item it = p) ∧
       (p.hp < p.max_hp →
         p.use_item it =
           { p with hp := min p.max_hp (p.hp + n),
                    inventory := p.inventory.erase it }) ∧
       (p.hp < p.max_hp → it ∈ p.inventory →
         p.inventory.Perm (it :: (p.use_item it).inventory)))) ∧
    (it.item_type = "potion" → it.effect = some (.mana n) →
      ((p.mp = p.max_mp → p.use_item it = p) ∧
       (p.mp < p.max_mp →
         p.use_item it =
           { p with mp := min p.max_mp (p.mp + n),
                    inventory := p.inventory.erase it }) ∧
       (p.mp < p.max_mp → it ∈ p.inventory →
         p.inventory.Perm (it :: (p.use_item it).inventory)))) := by
  constructor
  · intro ht he
    have hun : p.use_item it =
        (if p.hp = p.max_hp then p
         else { p with hp := if p.hp + n > p.max_hp then p.max_hp else p.hp + n,
                       inventory := p.inventory.erase it }) := by
      unfold Player.use_item
      rw [if_neg (not_not_intro ht), he]
    refine ⟨?_, ?_, ?_⟩
    · intro h
      rw [hun, if_pos h]
    · intro h
      rw [hun, if_neg (ne_of_lt h)]
      congr 1
      omega
    · intro h hmem
      rw [hun, if_neg (ne_of_lt h)]
      exact List.perm_cons_erase hmem
  · intro ht he
    have hun : p.use_item it =
        (if p.mp = p.max_mp then p
         else { p with mp := if p.mp + n > p.max_mp then p.max_mp else p.mp + n,
                       inventory := p.inventory.erase it }) := by
      unfold Player.use_item
      rw [if_neg (not_not_intro ht), he]
    refine ⟨?_, ?_, ?_⟩
    · intro h
      rw [hun, if_pos h]
    · intro h
      rw [hun, if_neg (ne_of_lt h)]
      congr 1
      omega
    · intro h hmem
      rw [hun, if_neg (ne_of_lt h)]
      exact List.perm_cons_erase hmem

/-- C7 witness: the Guardian at 110/120 HP healing 25 clamps to 120 and
loses exactly the used potion; the full-health Guardian keeps both HP
and potion. -/
theorem C7_use_item_witness :
    potionDemo.item_type = "potion" ∧ potionDemo.effect = some (.heal 25) ∧
    guardianDemo110.hp < guardianDemo110.max_hp ∧
    guardianDemo110.use_item potionDemo =
      { guardianDemo110 with
          hp := min guardianDemo110.max_hp (guardianDemo110.hp + 25),
          inventory := guardianDemo110.inventory.erase potionDemo } ∧
    guardianDemo.hp = guardianDemo.max_hp ∧
    guardianDemo.use_item potionDemo = guardianDemo :=
  ⟨rfl, rfl, by decide,
   (((C7_use_item guardianDemo110 potionDemo 25).1 rfl rfl).2.1 (by decide)),
   rfl,
   (((C7_use_item guardianDemo potionDemo 25).1 rfl rfl).1 rfl)⟩

/-- C9: `use_item` on an item whose category is not potion (weapon or
artifact) is rejected with no state change at all. -/
theorem C9_use_non_potion (p : Player) (it : Item)
    (h : it.item_type ≠ "potion") : p.use_item it = p := by
  unfold Player.use_item
  rw [if_pos h]

/-- C9 witness: using the Apprentice Staff (a weapon) changes nothing. -/
theorem C9_use_non_potion_witness :
    staffDemo.item_type ≠ "potion" ∧ mageDemo.use_item staffDemo = mageDemo :=
  ⟨by decide, C9_use_non_potion mageDemo staffDemo (by decide)⟩

/-! ### Invariant lemmas for the combat loop -/

/-- `use_item` with a valid item never lowers HP, keeps HP at or below the
(unchanged) maximum, only drops items from the inventory, and leaves the
defending flag alone. -/
lemma use_item_facts (p : Player) (it : Item) (hn : it.effect_nonneg = true)
    (hle : p.hp ≤ p.max_hp) :
    p.hp ≤ (p.use_item it).hp ∧ (p.use_item it).hp ≤ (p.use_item it).max_hp ∧
    (p.use_item it).max_hp = p.max_hp ∧
    (∀ x ∈ (p.use_item it).inventory, x ∈ p.inventory) ∧
    (p.use_item it).is_defending = p.is_defending := by
  unfold Player.use_item
  by_cases h : it.item_type ≠ "potion"
  · rw [if_pos h]
    exact ⟨le_refl _, hle, rfl, fun x hx => hx, rfl⟩
  · rw [if_neg h]
    rw [Item.effect_nonneg] at hn
    cases heff : it.effect with
    | none => exact ⟨le_refl _, hle, rfl, fun x hx => hx, rfl⟩
    | some eff =>
      rw [heff] at hn
      cases eff with
      | heal n =>
        have h0 : 0 ≤ n := of_decide_eq_true hn
        dsimp only
        by_cases hfull : p.hp = p.max_hp
        · rw [if_pos hfull]
          exact ⟨le_refl _, hle, rfl, fun x hx => hx, rfl⟩
        · rw [if_neg hfull]
          refine ⟨?_, ?_, rfl, fun x hx => List.erase_subset _ _ hx, rfl⟩ <;>
            dsimp only <;> split_ifs <;> omega
      | mana n =>
        dsimp only
        by_cases hfull : p.mp = p.max_mp
        · rw [if_pos hfull]
          exact ⟨le_refl _, hle, rfl, fun x hx => hx, rfl⟩
        · rw [if_neg hfull]
          exact ⟨le_refl _, hle, rfl, fun x hx => List.erase_subset _ _ hx, rfl⟩
      | boost a m => exact ⟨le_refl _, hle, rfl, fun x hx => hx, rfl⟩

/-- The inventory-screen command loop preserves the combat invariants:
HP never drops, HP stays at or below the unchanged maximum, the
inventory stays valid, and the defending flag is untouched. -/
lemma invLoop_facts : ∀ (cmds : List InvCmd) (p : Player), invOk p →
    p.hp ≤ p.max_hp →
    p.hp ≤ (invLoop p cmds).hp ∧
    (invLoop p cmds).hp ≤ (invLoop p cmds).max_hp ∧
    (invLoop p cmds).max_hp = p.max_hp ∧ invOk (invLoop p cmds) ∧
    (invLoop p cmds).is_defending = p.is_defending := by
  intro cmds
  induction cmds with
  | nil => exact fun p hinv hle => ⟨le_refl _, hle, rfl, hinv, rfl⟩
  | cons c rest ih =>
    intro p hinv hle
    cases c with
    | back => exact ⟨le_refl _, hle, rfl, hinv, rfl⟩
    | use nm =>
      rw [invLoop]
      cases hf : findItem p.inventory nm with
      | none => exact ih p hinv hle
      | some it =>
        have hmem : it ∈ p.inventory := List.mem_of_find?_eq_some hf
        have hfacts := use_item_facts p it (hinv it hmem) hle
        exact ⟨hfacts.1, hfacts.2.1, hfacts.2.2.1,
          fun x hx => hinv x (hfacts.2.2.2.1 x hx), hfacts.2.2.2.2⟩
    | view nm =>
      rw [invLoop]
      cases hf : findItem p.inventory nm with
      | none => exact ih p hinv hle
      | some it => exact ih p hinv hle
    | discard nm =>
      rw [invLoop]
      cases hf : findItem p.inventory nm with
      | none => exact ih p hinv hle
      | some it =>
        exact ih { p with inventory := p.inventory.erase it }
          (fun x hx => hinv x (List.erase_subset _ _ hx)) hle
    | invalid => exact ih p hinv hle

/-- `show_inventory` preserves the same invariants. -/
lemma show_inventory_facts (p : Player) (cmds : List InvCmd) (hinv : invOk p)
    (hle : p.hp ≤ p.max_hp) :
    p.hp ≤ (p.show_inventory cmds).hp ∧
    (p.show_inventory cmds).hp ≤ (p.show_inventory cmds).max_hp ∧
    (p.show_inventory cmds).max_hp = p.max_hp ∧
    invOk (p.show_inventory cmds) ∧
    (p.show_inventory cmds).is_defending = p.is_defending := by
  unfold Player.show_inventory
  split_ifs with h
  · exact ⟨le_refl _, hle, rfl, hinv, rfl⟩
  · exact invLoop_facts cmds p hinv hle

/-- A special move that reports failure changed nothing. -/
lemma special_move_false (p : Player) (e : Enemy) (rInt : ℤ)
    (h : (p.special_move e rInt).2.2 = false) :
    p.special_move e rInt = (p, e, false) := by
  unfold Player.special_move at h ⊢
  by_cases hmp : p.mp < 15
  · rw [if_pos hmp]
  · rw [if_neg hmp] at h
    split_ifs at h

/-- A special move never touches the caster's vitals other than mana,
leaves the target's health nonnegative, and does not change the target's
strength. -/
lemma special_move_facts (p : Player) (e : Enemy) (rInt : ℤ) (he : 0 ≤ e.hp) :
    (p.special_move e rInt).1.hp = p.hp ∧
    (p.special_move e rInt).1.max_hp = p.max_hp ∧
    (p.special_move e rInt).1.inventory = p.inventory ∧
    (p.special_move e rInt).1.is_defending = p.is_defending ∧
    0 ≤ (p.special_move e rInt).2.1.hp ∧
    (p.special_move e rInt).2.1.strength = e.strength := by
  unfold Player.special_move Enemy.take_damage
  dsimp only
  by_cases hmp : p.mp < 15
  · rw [if_pos hmp]
    exact ⟨rfl, rfl, rfl, rfl, he, rfl⟩
  · rw [if_neg hmp]
    split_ifs <;> refine ⟨rfl, rfl, rfl, rfl, ?_, rfl⟩ <;>
      first
      | exact he
      | (dsimp only; omega)

/-- A player attack leaves the enemy with nonnegative health and
unchanged strength. -/
lemma player_attack_facts (p : Player) (e : Enemy) (rInt : ℤ) (rFloat : ℚ) :
    0 ≤ (p.attack e rInt rFloat).hp ∧
    (p.attack e rInt rFloat).strength = e.strength := by
  unfold Player.attack Enemy.take_damage
  dsimp only
  constructor
  · split_ifs <;> omega
  · rfl

/-- Resolving the player's turn never lowers the player's HP, preserves
the HP-below-max invariant, the inventory validity and the player's max
HP, and leaves the enemy with nonnegative health and unchanged
strength. -/
lemma resolveActions_facts : ∀ (acts : List PAction) (p : Player) (e : Enemy)
    (p1 : Player) (e1 : Enemy), invOk p → p.hp ≤ p.max_hp → 0 ≤ e.hp →
    resolveActions p e acts = some (.acted p1 e1) →
    p.hp ≤ p1.hp ∧ p1.hp ≤ p1.max_hp ∧ p1.max_hp = p.max_hp ∧ invOk p1 ∧
    0 ≤ e1.hp ∧ e1.strength = e.strength := by
  intro acts
  induction acts with
  | nil => intro p e p1 e1 _ _ _ h; exact absurd h (by simp [resolveActions])
  | cons a rest ih =>
    intro p e p1 e1 hinv hle he hres
    cases a with
    | attack ri rf =>
      simp only [resolveActions] at hres
      have hinj := Option.some.inj hres
      have h1 := (TurnRes.acted.inj hinj).1
      have h2 := (TurnRes.acted.inj hinj).2
      have hf := player_attack_facts p e ri rf
      rw [← h1, ← h2]
      exact ⟨le_refl _, hle, rfl, hinv, hf.1, hf.2⟩
    | special ri =>
      simp only [resolveActions] at hres
      by_cases hok : (p.special_move e ri).2.2 = true
      · rw [if_pos hok] at hres
        have hinj := Option.some.inj hres
        have h1 := (TurnRes.acted.inj hinj).1
        have h2 := (TurnRes.acted.inj hinj).2
        have hf := special_move_facts p e ri he
        rw [← h1, ← h2]
        refine ⟨?_, ?_, hf.2.1, ?_, hf.2.2.2.2.1, hf.2.2.2.2.2⟩
        · rw [hf.1]
        · rw [hf.1, hf.2.1]
          exact hle
        · exact fun it hm => hinv it (hf.2.2.1 ▸ hm)
      · rw [if_neg hok] at hres
        have hfalse := special_move_false p e ri (by simpa using hok)
        rw [hfalse] at hres
        exact ih p e p1 e1 hinv hle he hres
    | defend =>
      simp only [resolveActions] at hres
      have hinj := Option.some.inj hres
      have h1 := (TurnRes.acted.inj hinj).1
      have h2 := (TurnRes.acted.inj hinj).2
      rw [← h1, ← h2]
      exact ⟨le_refl _, hle, rfl, hinv, he, rfl⟩
    | item cmds =>
      simp only [resolveActions] at hres
      have hf := show_inventory_facts p cmds hinv hle
      have hrec := ih (p.show_inventory cmds) e p1 e1 hf.2.2.2.1 hf.2.1 he
        hres
      exact ⟨le_trans hf.1 hrec.1, hrec.2.1, hrec.2.2.1.trans hf.2.2.1,
        hrec.2.2.2⟩
    | flee rf =>
      simp only [resolveActions] at hres
      by_cases hfl : rf > 33 / 100
      · rw [if_pos hfl] at hres
        exact absurd (Option.some.inj hres) (fun h => TurnRes.noConfusion h)
      · rw [if_neg hfl] at hres
        have hinj := Option.some.inj hres
        have h1 := (TurnRes.acted.inj hinj).1
        have h2 := (TurnRes.acted.inj hinj).2
        rw [← h1, ← h2]
        exact ⟨le_refl _, hle, rfl, hinv, he, rfl⟩
    | invalid =>
      simp only [resolveActions] at hres
      exact ih p e p1 e1 hinv hle he hres

/-- An enemy attack (with in-range roll against a nonnegative-strength
enemy) never raises the player's HP, keeps it nonnegative, and touches
neither max HP nor the inventory. -/
lemma enemy_attack_facts (e : Enemy) (p : Player) (rInt : ℤ) (rFloat : ℚ)
    (hs : 0 ≤ e.strength) (hr : 1 ≤ rInt) (hp0 : 0 ≤ p.hp) :
    0 ≤ (e.attack p rInt rFloat).hp ∧ (e.attack p rInt rFloat).hp ≤ p.hp ∧
    (e.attack p rInt rFloat).max_hp = p.max_hp ∧
    (e.attack p rInt rFloat).inventory = p.inventory := by
  unfold Enemy.attack Player.take_damage
  dsimp only
  have hd : 0 ≤ Int.fdiv (e.strength + rInt) 2 :=
    Int.fdiv_nonneg (by omega) (by omega)
  split_ifs <;> refine ⟨?_, ?_, rfl, rfl⟩ <;> ((try dsimp only); omega)

/-- Boolean aliveness in terms of health. -/
lemma enemy_not_alive_iff (e : Enemy) : ((!e.is_alive) = true) ↔ e.hp ≤ 0 := by
  simp [Enemy.is_alive]

/-- Boolean aliveness in terms of health, player side. -/
lemma player_not_alive_iff (p : Player) :
    ((!p.is_alive) = true) ↔ p.hp ≤ 0 := by
  simp [Player.is_alive]

/-- The loop guard holds for two live combatants. -/
lemma alive_guard (p : Player) (e : Enemy) (hp : 0 < p.hp) (he : 0 < e.hp) :
    (p.is_alive && e.is_alive) = true := by
  simp [Player.is_alive, Enemy.is_alive]
  exact ⟨hp, he⟩

/-- Once `start_combat` has returned, appending further scripted input
changes nothing: terminal states are never re-entered. -/
lemma start_combat_absorb : ∀ (ts : List TurnInput) (p : Player) (e : Enemy)
    (extra : List TurnInput) (o : Outcome),
    start_combat p e ts = some o → start_combat p e (ts ++ extra) = some o := by
  intro ts
  induction ts with
  | nil =>
    intro p e extra o h
    rw [start_combat] at h
    by_cases hc : (p.is_alive && e.is_alive) = true
    · rw [if_pos hc] at h
      exact absurd h (by simp)
    · rw [if_neg hc] at h
      rw [List.nil_append]
      cases extra with
      | nil => rw [start_combat, if_neg hc]; exact h
      | cons t ts' => rw [start_combat, if_neg hc]; exact h
  | cons t rest ih =>
    intro p e extra o h
    rw [List.cons_append]
    rw [start_combat] at h ⊢
    by_cases hc : (p.is_alive && e.is_alive) = true
    · rw [if_pos hc] at h ⊢
      cases hra : resolveActions { p with is_defending := false } e
          t.actions with
      | none => rw [hra] at h; exact absurd h (by simp)
      | some tr =>
        rw [hra] at h
        cases tr with
        | fled => exact h
        | acted p1 e1 =>
          dsimp only at h ⊢
          by_cases hv : (!e1.is_alive) = true
          · rw [if_pos hv] at h ⊢
            exact h
          · rw [if_neg hv] at h ⊢
            by_cases hd : (!(e1.attack p1 t.eInt t.eFloat).is_alive) = true
            · rw [if_pos hd] at h ⊢
              exact h
            · rw [if_neg hd] at h ⊢
              exact ih _ _ extra o h
    · rw [if_neg hc] at h ⊢
      exact h

/-- The instrumented runner agrees with `start_combat` on the outcome. -/
lemma start_combat_run_fst : ∀ (ts : List TurnInput) (p : Player) (e : Enemy),
    start_combat p e ts = (start_combat_run p e ts).map Prod.fst := by
  intro ts
  induction ts with
  | nil =>
    intro p e
    rw [start_combat, start_combat_run]
    by_cases hc : (p.is_alive && e.is_alive) = true
    · rw [if_pos hc, if_pos hc]
      rfl
    · rw [if_neg hc, if_neg hc]
      rfl
  | cons t rest ih =>
    intro p e
    rw [start_combat, start_combat_run]
    by_cases hc : (p.is_alive && e.is_alive) = true
    · rw [if_pos hc, if_pos hc]
      cases hra : resolveActions { p with is_defending := false } e
          t.actions with
      | none => rfl
      | some tr =>
        cases tr with
        | fled => rfl
        | acted p1 e1 =>
          dsimp only
          by_cases hv : (!e1.is_alive) = true
          · rw [if_pos hv, if_pos hv]
            rfl
          · rw [if_neg hv, if_neg hv]
            by_cases hd : (!(e1.attack p1 t.eInt t.eFloat).is_alive) = true
            · rw [if_pos hd, if_pos hd]
              rfl
            · rw [if_neg hd, if_neg hd]
              exact ih _ _
    · rw [if_neg hc, if_neg hc]
      rfl

/-- Case analysis of a finished run from a live, well-formed starting
state: a defeat ends with the player at exactly 0 HP and the enemy
alive; a victory ends with the enemy at exactly 0 HP and the player
alive; a flight ends with both alive. -/
lemma run_cases : ∀ (ts : List TurnInput) (p : Player) (e : Enemy),
    0 < p.hp → p.hp ≤ p.max_hp → invOk p → 0 < e.hp → 0 ≤ e.strength →
    (∀ t ∈ ts, validTurn t) →
    ∀ o p' e', start_combat_run p e ts = some (o, p', e') →
      (o = .defeat ∧ p'.hp = 0 ∧ 0 < e'.hp) ∨
      (o = .victory ∧ e'.hp = 0 ∧ 0 < p'.hp) ∨
      (o = .fled ∧ 0 < p'.hp ∧ 0 < e'.hp) := by
  intro ts
  induction ts with
  | nil =>
    intro p e hp1 hp2 hinv he1 hes hval o p' e' h
    rw [start_combat_run, if_pos (alive_guard p e hp1 he1)] at h
    exact absurd h (by simp)
  | cons t rest ih =>
    intro p e hp1 hp2 hinv he1 hes hval o p' e' h
    rw [start_combat_run, if_pos (alive_guard p e hp1 he1)] at h
    cases hra : resolveActions { p with is_defending := false } e
        t.actions with
    | none => rw [hra] at h; exact absurd h (by simp)
    | some tr =>
      rw [hra] at h
      cases tr with
      | fled =>
        dsimp only at h
        have hinj := Option.some.inj h
        have h1 := (Prod.mk.inj hinj).1
        have h23 := Prod.mk.inj (Prod.mk.inj hinj).2
        rw [← h1, ← h23.1, ← h23.2]
        exact Or.inr (Or.inr ⟨rfl, hp1, he1⟩)
      | acted p1 e1 =>
        dsimp only at h
        have hfacts := resolveActions_facts t.actions
          { p with is_defending := false } e p1 e1 hinv hp2
          (le_of_lt he1) hra
        have hp1hp : 0 < p1.hp := lt_of_lt_of_le hp1 hfacts.1
        by_cases hv : (!e1.is_alive) = true
        · rw [if_pos hv] at h
          have hinj := Option.some.inj h
          have h1 := (Prod.mk.inj hinj).1
          have h23 := Prod.mk.inj (Prod.mk.inj hinj).2
          rw [← h1, ← h23.1, ← h23.2]
          refine Or.inr (Or.inl ⟨rfl, ?_, hp1hp⟩)
          have := (enemy_not_alive_iff e1).mp hv
          have := hfacts.2.2.2.2.1
          omega
        · rw [if_neg hv] at h
          have he1hp : 0 < e1.hp := by
            rcases (not_iff_not.mpr (enemy_not_alive_iff e1)).mp hv with h'
            omega
          have heA := enemy_attack_facts e1 p1 t.eInt t.eFloat
            (hfacts.2.2.2.2.2 ▸ hes) (hval t (List.mem_cons_self t rest)).1
            (le_of_lt hp1hp)
          by_cases hd : (!(e1.attack p1 t.eInt t.eFloat).is_alive) = true
          · rw [if_pos hd] at h
            have hinj := Option.some.inj h
            have h1 := (Prod.mk.inj hinj).1
            have h23 := Prod.mk.inj (Prod.mk.inj hinj).2
            rw [← h1, ← h23.1, ← h23.2]
            refine Or.inl ⟨rfl, ?_, he1hp⟩
            have := (player_not_alive_iff _).mp hd
            omega
          · rw [if_neg hd] at h
            have hp2hp : 0 < (e1.attack p1 t.eInt t.eFloat).hp := by
              rcases (not_iff_not.mpr (player_not_alive_iff _)).mp hd with h'
              omega
            refine ih (e1.attack p1 t.eInt t.eFloat) e1 hp2hp ?_ ?_ he1hp
              (hfacts.2.2.2.2.2 ▸ hes) (fun t' ht' => hval t'
                (List.mem_cons_of_mem t ht')) o p' e' h
            · calc (e1.attack p1 t.eInt t.eFloat).hp ≤ p1.hp := heA.2.1
                _ ≤ p1.max_hp := hfacts.2.1
                _ = (e1.attack p1 t.eInt t.eFloat).max_hp := heA.2.2.1.symm
            · exact fun it hm => hfacts.2.2.2.1 it (heA.2.2.2 ▸ hm)

/-- C8: selecting flee draws one uniform float; a draw strictly above
0.33 ends combat immediately with `'fled'` (~67% success probability);
otherwise the attempt merely consumes the player's turn — player and
enemy state are unchanged from the turn's start — and the enemy then
takes its turn. -/
theorem C8_flee (p : Player) (e : Enemy) (rf : ℚ) (rest : List PAction)
    (eInt : ℤ) (eFloat : ℚ) (ts : List TurnInput) :
    (rf > 33 / 100 → resolveActions p e (.flee rf :: rest) = some .fled) ∧
    (¬ rf > 33 / 100 →
      resolveActions p e (.flee rf :: rest) = some (.acted p e)) ∧
    (0 < p.hp → 0 < e.hp → rf > 33 / 100 →
      start_combat p e (⟨.flee rf :: rest, eInt, eFloat⟩ :: ts) =
        some .fled) ∧
    (0 < p.hp → 0 < e.hp → ¬ rf > 33 / 100 →
      start_combat p e (⟨.flee rf :: rest, eInt, eFloat⟩ :: ts) =
        (if (!(e.attack { p with is_defending := false } eInt
                eFloat).is_alive) = true
         then some .defeat
         else start_combat
           (e.attack { p with is_defending := false } eInt eFloat) e ts)) := by
  refine ⟨?_, ?_, ?_, ?_⟩
  · intro h
    simp only [resolveActions]
    rw [if_pos h]
  · intro h
    simp only [resolveActions]
    rw [if_neg h]
  · intro hp he h
    rw [start_combat, if_pos (alive_guard p e hp he)]
    have hres : resolveActions { p with is_defending := false } e
        (.flee rf :: rest) = some .fled := by
      simp only [resolveActions]
      rw [if_pos h]
    dsimp only
    rw [hres]
  · intro hp he h
    rw [start_combat, if_pos (alive_guard p e hp he)]
    have hres : resolveActions { p with is_defending := false } e
        (.flee rf :: rest) =
          some (.acted { p with is_defending := false } e) := by
      simp only [resolveActions]
      rw [if_neg h]
    dsimp only
    rw [hres]
    have hv : ¬ ((!e.is_alive) = true) := by
      rw [enemy_not_alive_iff]
      omega
    dsimp only
    rw [if_neg hv]

/-- C8 witness: with draw 1 the demo combat ends `'fled'`; with draw 0
the flee fails and the turn resolves with both combatants unchanged. -/
theorem C8_flee_witness :
    0 < mageDemo.hp ∧ 0 < golemDemo.hp ∧ ((1 : ℚ) > 33 / 100) ∧
    start_combat mageDemo golemDemo [⟨[.flee 1], 1, 0⟩] = some .fled ∧
    ¬ ((0 : ℚ) > 33 / 100) ∧
    resolveActions mageDemo golemDemo [.flee 0] =
      some (.acted mageDemo golemDemo) :=
  ⟨by decide, by decide, by with_unfolding_all decide,
   (C8_flee mageDemo golemDemo 1 [] 1 0 []).2.2.1 (by decide) (by decide)
     (by with_unfolding_all decide),
   by with_unfolding_all decide,
   (C8_flee mageDemo golemDemo 0 [] 1 0 []).2.1
     (by with_unfolding_all decide)⟩

/-- C1: from a live, well-formed starting state (player with
`0 < hp ≤ max_hp` and a valid inventory; enemy with positive health and
nonnegative strength), the combat loop (i) never re-enters a terminal
state — once it returns, appended input changes nothing; (ii) checks the
enemy's death immediately after the player's turn-ending action resolves
and returns `'victory'` before the enemy acts when the enemy's health is
0 at that point; (iii) otherwise lets the enemy attack, returning
`'defeat'` if the player then is dead and otherwise handing control back
to the player's turn; (iv) under valid RNG draws, whenever the loop
returns it returns the single outcome of the instrumented run, with
`'defeat'` exactly when the player's health is 0 at exit and `'victory'`
exactly when the enemy's health is 0 at exit. -/
theorem C1_combat_loop (p : Player) (e : Enemy)
    (hp1 : 0 < p.hp) (hp2 : p.hp ≤ p.max_hp) (hinv : invOk p)
    (he1 : 0 < e.hp) (hes : 0 ≤ e.strength) :
    (∀ (ts extra : List TurnInput) (o : Outcome),
        start_combat p e ts = some o →
        start_combat p e (ts ++ extra) = some o) ∧
    (∀ (t : TurnInput) (rest : List TurnInput) (p1 : Player) (e1 : Enemy),
        resolveActions { p with is_defending := false } e t.actions =
          some (.acted p1 e1) → e1.hp = 0 →
        start_combat p e (t :: rest) = some .victory) ∧
    (∀ (t : TurnInput) (rest : List TurnInput) (p1 : Player) (e1 : Enemy),
        resolveActions { p with is_defending := false } e t.actions =
          some (.acted p1 e1) → e1.hp ≠ 0 →
        start_combat p e (t :: rest) =
          (if (!(e1.attack p1 t.eInt t.eFloat).is_alive) = true
           then some .defeat
           else start_combat (e1.attack p1 t.eInt t.eFloat) e1 rest)) ∧
    (∀ ts : List TurnInput, (∀ t ∈ ts, validTurn t) →
        ∀ (o : Outcome) (p' : Player) (e' : Enemy),
          start_combat_run p e ts = some (o, p', e') →
          start_combat p e ts = some o ∧
          (o = .defeat ↔ p'.hp = 0) ∧ (o = .victory ↔ e'.hp = 0)) := by
  refine ⟨fun ts extra o h => start_combat_absorb ts p e extra o h,
    ?_, ?_, ?_⟩
  · intro t rest p1 e1 hra hz
    rw [start_combat, if_pos (alive_guard p e hp1 he1)]
    rw [hra]
    dsimp only
    rw [if_pos ((enemy_not_alive_iff e1).mpr (le_of_eq hz))]
  · intro t rest p1 e1 hra hnz
    have hfacts := resolveActions_facts t.actions
      { p with is_defending := false } e p1 e1 hinv hp2 (le_of_lt he1) hra
    rw [start_combat, if_pos (alive_guard p e hp1 he1)]
    rw [hra]
    dsimp only
    rw [if_neg ?_]
    rw [enemy_not_alive_iff]
    have := hfacts.2.2.2.2.1
    omega
  · intro ts hval o p' e' hrun
    refine ⟨by rw [start_combat_run_fst ts p e, hrun]; rfl, ?_⟩
    rcases run_cases ts p e hp1 hp2 hinv he1 hes hval o p' e' hrun with
      ⟨ho, hh, hee⟩ | ⟨ho, hh, hpp⟩ | ⟨ho, hpp, hee⟩ <;> subst ho
    · exact ⟨⟨fun _ => hh, fun _ => rfl⟩,
        ⟨fun hv => Outcome.noConfusion hv, fun hz => absurd hz (by omega)⟩⟩
    · exact ⟨⟨fun hd => Outcome.noConfusion hd, fun hz => absurd hz (by omega)⟩,
        ⟨fun _ => hh, fun _ => rfl⟩⟩
    · exact ⟨⟨fun hd => Outcome.noConfusion hd, fun hz => absurd hz (by omega)⟩,
        ⟨fun hv => Outcome.noConfusion hv, fun hz => absurd hz (by omega)⟩⟩

/-- C1 witness: the demo Mage against the demo golem, fleeing with draw
2/3 on the first turn: the hypotheses all hold and conjunct (iv) applied
to the instrumented run yields the `'fled'` outcome. -/
theorem C1_combat_loop_witness :
    0 < mageDemo.hp ∧ mageDemo.hp ≤ mageDemo.max_hp ∧ invOk mageDemo ∧
    0 < golemDemo.hp ∧ 0 ≤ golemDemo.strength ∧
    start_combat mageDemo golemDemo [⟨[.flee (2 / 3)], 2, 0⟩] =
      some .fled := by
  refine ⟨by decide, by decide, by decide, by decide, by decide, ?_⟩
  have h := (C1_combat_loop mageDemo golemDemo (by decide) (by decide)
      (by decide) (by decide) (by decide)).2.2.2 [⟨[.flee (2 / 3)], 2, 0⟩]
    (by
      intro t ht
      rw [List.mem_singleton] at ht
      subst ht
      exact ⟨by decide, by decide⟩)
    .fled { mageDemo with is_defending := false } golemDemo
    (by with_unfolding_all decide)
  exact h.1

end Emberstone
